import Mathlib

/-!
Shallow embedding of the meson-cli bridge orchestration workflow
(src/packages/meson-cli/src/{types,api,signature,contract,cli}.ts).

JavaScript numbers are modelled by `JSNum` (NaN, the two infinities, and an
exact rational value); the comparisons used by the code (`<`, `>`) follow
IEEE semantics, in particular every comparison involving NaN is false.
`parseFloat` is modelled as longest-numeric-prefix parsing into a `JSNum`.

Network interactions are modelled by oracle parameters (`HttpOutcome`,
`Except`-valued chain-call results), and each flow returns the list of
outbound effects it issued (`Effect`) together with its terminal outcome.
-/

set_option linter.unusedVariables false

namespace MesonCli

/-- Model of a JavaScript number: NaN, plus/minus infinity, or an exact value. -/
inductive JSNum where
  | nan
  | posInf
  | negInf
  | val (q : ℚ)
deriving DecidableEq, Repr

/-- JavaScript `a < b` (IEEE semantics: any comparison with NaN is false). -/
def JSNum.lt : JSNum → JSNum → Bool
  | .nan, _ => false
  | _, .nan => false
  | .negInf, .negInf => false
  | .negInf, _ => true
  | _, .negInf => false
  | .posInf, _ => false
  | .val _, .posInf => true
  | .val a, .val b => decide (a < b)

/-- JavaScript `a > b`. -/
def JSNum.gt (a b : JSNum) : Bool := JSNum.lt b a

/-- Numeric value of a decimal digit character. -/
def digitVal (c : Char) : Nat := c.toNat - 48

/-- Split a character list into its leading run of decimal digits and the rest. -/
def takeDigits : List Char → List Char × List Char
  | [] => ([], [])
  | c :: cs =>
    if c.isDigit then
      let p := takeDigits cs
      (c :: p.1, p.2)
    else ([], c :: cs)

/-- Value of a digit run read in base 10. -/
def digitsToNat (ds : List Char) : Nat := ds.foldl (fun a c => a * 10 + digitVal c) 0

/-- Skip the leading whitespace that JavaScript `parseFloat` ignores. -/
def skipWs : List Char → List Char
  | [] => []
  | c :: cs => if c = ' ' ∨ c = '\t' ∨ c = '\n' ∨ c = '\r' then skipWs cs else c :: cs

/-- Parse the mantissa part (digits, optional dot, fraction digits); returns
the mantissa as a natural number with its count of fraction digits plus the
unconsumed remainder; `none` if no digit is found, mirroring `parseFloat`
returning NaN. -/
def parseMantissa (cs : List Char) : Option ((Nat × Nat) × List Char) :=
  let p := takeDigits cs
  match p.2 with
  | '.' :: r2 =>
    let f := takeDigits r2
    if p.1.isEmpty ∧ f.1.isEmpty then none
    else some ((digitsToNat p.1 * 10 ^ f.1.length + digitsToNat f.1, f.1.length), f.2)
  | _ =>
    if p.1.isEmpty then none
    else some ((digitsToNat p.1, 0), p.2)

/-- Parse an optional exponent part (`e`/`E`, optional sign, digits); an
exponent marker not followed by digits is ignored, as in JavaScript. -/
def parseExponent (cs : List Char) : Int :=
  match cs with
  | c :: r1 =>
    if c = 'e' ∨ c = 'E' then
      match r1 with
      | '+' :: r2 =>
        let d := takeDigits r2
        if d.1.isEmpty then 0 else (digitsToNat d.1 : Int)
      | '-' :: r2 =>
        let d := takeDigits r2
        if d.1.isEmpty then 0 else -(digitsToNat d.1 : Int)
      | _ =>
        let d := takeDigits r1
        if d.1.isEmpty then 0 else (digitsToNat d.1 : Int)
    else 0
  | [] => 0

/-- The rational value `±mantissa * 10 ^ e / 10 ^ fracLen`, built with
natural/integer arithmetic and one final `mkRat`. -/
def decValue (neg : Bool) (mantissa fracLen : Nat) (e : Int) : ℚ :=
  let n : Int := if neg then -(mantissa : Int) else (mantissa : Int)
  match e with
  | .ofNat m => mkRat (n * ((10 ^ m : Nat) : Int)) (10 ^ fracLen)
  | .negSucc m => mkRat n (10 ^ fracLen * 10 ^ (m + 1))

/-- JavaScript `parseFloat` on a character list: longest numeric prefix
(optionally signed, `Infinity` literal, decimal with optional exponent),
NaN when no numeric prefix exists. -/
def parseFloatChars (cs0 : List Char) : JSNum :=
  let cs1 := skipWs cs0
  let sp : Bool × List Char :=
    match cs1 with
    | '-' :: r => (true, r)
    | '+' :: r => (false, r)
    | _ => (false, cs1)
  if sp.2.take 8 = "Infinity".data then
    if sp.1 then JSNum.negInf else JSNum.posInf
  else
    match parseMantissa sp.2 with
    | none => JSNum.nan
    | some (m, rest) =>
      JSNum.val (decValue sp.1 m.1 m.2 (parseExponent rest))

/-- JavaScript `parseFloat`, as used by both flows on the amount string and by
`validateAmount` on the min/max limit strings. -/
def parseFloat (s : String) : JSNum := parseFloatChars s.data

/-- JavaScript truthiness of an optional string (absent or empty is falsy). -/
def truthy (s : Option String) : Bool := !(s.getD "" == "")

/-- JavaScript `String.prototype.split` with a one-character separator, on
character lists. -/
def splitOnChar (sep : Char) : List Char → List (List Char)
  | [] => [[]]
  | c :: cs =>
    if c = sep then [] :: splitOnChar sep cs
    else
      match splitOnChar sep cs with
      | [] => [[c]]
      | g :: gs => (c :: g) :: gs

/-- The flows' `s.split(':')` used to separate a chain:token argument. -/
def splitColon (s : String) : List String :=
  (splitOnChar ':' s.data).map (fun cs => String.mk cs)

/-- Embedding of `src/types.ts` Token: identifier plus optional address and min/max limit strings. -/
structure Token where
  id : String
  addr : Option String := none
  min : Option String := none
  max : Option String := none
deriving DecidableEq, Repr

/-- Embedding of `src/types.ts` Chain registry entry. -/
structure Chain where
  id : String
  name : String
  chainId : String
  address : String
  destinationChainOnly : Option Bool := none
  tokens : List Token
deriving DecidableEq, Repr

/-- Embedding of `src/types.ts` ChainLimit: per-chain list of per-token limits. -/
structure ChainLimit where
  id : String
  name : String
  tokens : List Token
deriving DecidableEq, Repr

/-- Embedding of `src/types.ts` fee breakdown inside EncodeSwapResult. -/
structure Fee where
  serviceFee : String
  lpFee : String
  totalFee : String
deriving DecidableEq, Repr

/-- Embedding of `src/types.ts` signing request inside EncodeSwapResult. -/
structure SigningRequest where
  message : String
  hash : String
deriving DecidableEq, Repr

/-- Embedding of `src/types.ts` EncodeSwapResult as returned by the relayer encode call. -/
structure EncodeSwapResult where
  encoded : String
  fromAddress : Option String := none
  fromContract : Option String := none
  recipient : String
  fee : Fee
  convertedAmount : Option String := none
  convertedToken : Option String := none
  signingRequest : Option SigningRequest := none
  initiator : Option String := none
deriving DecidableEq, Repr

/-- Embedding of `src/types.ts` SwapResult. -/
structure SwapResult where
  swapId : String
deriving DecidableEq, Repr

/-- Embedding of `src/types.ts` EncodeSwapParams: the body of the encode request. -/
structure EncodeSwapParams where
  fromCT : String
  toCT : String
  amount : String
  fromAddress : String
  recipient : String
  fromContract : Option Bool := none
  dataToContract : Option String := none
deriving DecidableEq, Repr

/-- Error body of the relayer error envelope. -/
structure ApiErrorBody where
  code : Int
  message : String
  dataCode : Option String := none
deriving DecidableEq, Repr

/-- Relayer response envelope (`{result?, error?}` of `src/types.ts`). -/
structure ApiResponse (T : Type) where
  result : Option T := none
  error : Option ApiErrorBody := none
deriving DecidableEq, Repr

/-- Outcome of one HTTP exchange: a decoded envelope, or a network failure. -/
inductive HttpOutcome (T : Type) where
  | ok (resp : ApiResponse T)
  | networkError (message : String)
deriving DecidableEq, Repr

/-- Decidable equality for `Except`, used to evaluate flow results. -/
instance exceptDecEq {e a : Type} [DecidableEq e] [DecidableEq a] : DecidableEq (Except e a)
  | .error x, .error y =>
    if h : x = y then .isTrue (by rw [h]) else .isFalse (by simp [h])
  | .error _, .ok _ => .isFalse (by simp)
  | .ok _, .error _ => .isFalse (by simp)
  | .ok x, .ok y =>
    if h : x = y then .isTrue (by rw [h]) else .isFalse (by simp [h])

/-- Validation errors thrown by `validateChainToken` (`src/cli` part of signature.ts). -/
inductive ChainTokenError where
  | unsupportedChain (role chainId : String)
  | unsupportedToken (role tokenId chainId : String)
deriving DecidableEq, Repr

/-- Errors surfaced by the workflow (each constructor corresponds to one
`throw` site of the source, named after the spec error taxonomy). -/
inductive CliError where
  | missingPrivateKey
  | chainToken (e : ChainTokenError)
  | amountOutOfRange (amount minSwap maxSwap : JSNum) (tokenId chainId : String)
  | encodeMissingData
  | contractAddressNotFound (chainId : String)
  | missingIntermediaryContract
  | serviceError (context message : String)
  | protocolError
  | transportError (message : String)
  | ethersError (message : String)
deriving DecidableEq, Repr

/-- Outbound effects issued by the flows (network requests, on-chain calls,
and the local signing operation). -/
inductive Effect where
  | fetchChainsReq
  | fetchLimitsReq
  | encodeReq (payload : EncodeSwapParams)
  | signOp (hash : String)
  | submitSwapReq (encoded : String)
  | deployContractReq (mesonContractAddress : String)
  | estimateGasReq
  | sendTxReq (gasLimit : Nat)
  | confirmWait
deriving DecidableEq, Repr

/-- Common relayer-response handling shared by every api.ts method: a present
`result` is returned as is; otherwise a present `error` raises a service error
carrying the relayer-supplied message; otherwise the shape is unrecognized
(protocol error); a network failure is re-raised as a transport error. -/
def handleResponse {T : Type} (out : HttpOutcome T) (context : String) : Except CliError T :=
  match out with
  | .networkError m => .error (.transportError m)
  | .ok resp =>
    match resp.result with
    | some r => .ok r
    | none =>
      match resp.error with
      | some e => .error (.serviceError context e.message)
      | none => .error .protocolError

/-- Embedding of `api.ts` getSupportedChains, with the HTTP exchange as an oracle. -/
def getSupportedChains (out : HttpOutcome (List Chain)) : Except CliError (List Chain) :=
  handleResponse out "Error fetching supported chains: "

/-- Embedding of `api.ts` getSwapLimits. -/
def getSwapLimits (out : HttpOutcome (List ChainLimit)) : Except CliError (List ChainLimit) :=
  handleResponse out "Error fetching swap limits: "

/-- Embedding of `api.ts` encodeSwap request body: mandatory fields always present, the two
optional fields included only when truthy. -/
def buildEncodePayload (fromCT toCT amount fromAddress recipient : String)
    (fromContract : Bool) (dataToContract : Option String) : EncodeSwapParams :=
  { fromCT := fromCT, toCT := toCT, amount := amount, fromAddress := fromAddress,
    recipient := recipient,
    fromContract := if fromContract then some true else none,
    dataToContract := if truthy dataToContract then dataToContract else none }

/-- Embedding of `api.ts` encodeSwap response handling. -/
def encodeSwapApi (out : HttpOutcome EncodeSwapResult) : Except CliError EncodeSwapResult :=
  handleResponse out "Error encoding swap: "

/-- Embedding of `api.ts` submitSwap (EOA flow) response handling. -/
def submitSwapApi (out : HttpOutcome SwapResult) : Except CliError SwapResult :=
  handleResponse out "Error submitting swap: "

/-- Embedding of `signature.ts` validateChainToken: unsupported chain when no registry entry
matches the chain id, unsupported token when the matched entry has no token with
the token id; the role string is carried only into the error. -/
def validateChainToken (chains : List Chain) (chainId tokenId role : String) :
    Option ChainTokenError :=
  match chains.find? (fun c => c.id == chainId) with
  | none => some (.unsupportedChain role chainId)
  | some chainInfo =>
    match chainInfo.tokens.find? (fun t => t.id == tokenId) with
    | none => some (.unsupportedToken role tokenId chainId)
    | some _ => none

/-- Outcome classification of `validateChainToken`, with the role erased. -/
inductive VctOutcome where
  | passed
  | badChain
  | badToken
deriving DecidableEq, Repr

/-- Classify a `validateChainToken` result, forgetting the role-dependent data. -/
def vctClass : Option ChainTokenError → VctOutcome
  | none => .passed
  | some (.unsupportedChain _ _) => .badChain
  | some (.unsupportedToken _ _ _) => .badToken

/-- Embedding of `signature.ts` validateAmount, minimum bound: `tokenLimit.min ? parseFloat(tokenLimit.min) : 0`. -/
def effectiveMin (t : Token) : JSNum :=
  if truthy t.min then parseFloat (t.min.getD "") else .val 0

/-- Embedding of `signature.ts` validateAmount, maximum bound: `tokenLimit.max ? parseFloat(tokenLimit.max) : Infinity`. -/
def effectiveMax (t : Token) : JSNum :=
  if truthy t.max then parseFloat (t.max.getD "") else .posInf

/-- Result of `validateAmount`: passed, skipped with a warning (no matching
chain or token limit entry), or an amount-out-of-range error. -/
inductive AmountCheck where
  | passed
  | skippedNoChainLimit
  | skippedNoTokenLimit
  | failed (e : CliError)
deriving DecidableEq, Repr

/-- Embedding of `signature.ts` validateAmount: missing limit data degrades to a skipped
check with a warning; otherwise fail iff `amount < min || amount > max` under
JavaScript comparison semantics. -/
def validateAmount (limits : List ChainLimit) (chainId tokenId : String) (amount : JSNum) :
    AmountCheck :=
  match limits.find? (fun c => c.id == chainId) with
  | none => .skippedNoChainLimit
  | some chainLimit =>
    match chainLimit.tokens.find? (fun t => t.id == tokenId) with
    | none => .skippedNoTokenLimit
    | some tokenLimit =>
      let minSwap := effectiveMin tokenLimit
      let maxSwap := effectiveMax tokenLimit
      if JSNum.lt amount minSwap || JSNum.gt amount maxSwap then
        .failed (.amountOutOfRange amount minSwap maxSwap tokenId chainId)
      else
        .passed

/-- Whether an `AmountCheck` is the error outcome. -/
def AmountCheck.isFailed : AmountCheck → Bool
  | .failed _ => true
  | _ => false

/-- Embedding of `contract.ts` findContractAddress: the registry entry's address, or null. -/
def findContractAddress (chains : List Chain) (chainId : String) : Option String :=
  match chains.find? (fun c => c.id == chainId) with
  | none => none
  | some c => some c.address

/-- Embedding of `cli.ts` runContractBridge step 3 (relayer-contract resolution): explicit
override when truthy, otherwise the source chain's registry address; fails when
neither yields a (truthy) address. -/
def resolveMesonContract (chains : List Chain) (fromChain : String)
    (overrideAddr : Option String) : Except CliError String :=
  if truthy overrideAddr then .ok (overrideAddr.getD "")
  else
    match findContractAddress chains fromChain with
    | none => .error (.contractAddressNotFound fromChain)
    | some a => if a == "" then .error (.contractAddressNotFound fromChain) else .ok a

/-- Embedding of `contract.ts` callTransferToMeson gas buffer: `gasEstimate * BigInt(12) / BigInt(10)`. -/
def gasWithBuffer (gasEstimate : Nat) : Nat := gasEstimate * 12 / 10

/-- Estimate-send-confirm tail of `contract.ts` callTransferToMeson: estimate
gas, attach the buffered gas limit, broadcast, wait for one confirmation, and
return the transaction hash; chain-level failures are re-raised. -/
def executeTransferTx (gasOut : Except String Nat) (sendOut : Except String String)
    (confirmOut : Except String Unit) : List Effect × Except CliError String :=
  match gasOut with
  | .error m => ([.estimateGasReq], .error (.ethersError m))
  | .ok gasEstimate =>
    let gasLimit := gasWithBuffer gasEstimate
    match sendOut with
    | .error m => ([.estimateGasReq, .sendTxReq gasLimit], .error (.ethersError m))
    | .ok txHash =>
      match confirmOut with
      | .error m => ([.estimateGasReq, .sendTxReq gasLimit, .confirmWait], .error (.ethersError m))
      | .ok _ => ([.estimateGasReq, .sendTxReq gasLimit, .confirmWait], .ok txHash)

/-- Embedding of `contract.ts` MesonContractService.callTransferToMeson: resolve or deploy
the TransferToMeson contract (error when absent and deployment not requested),
then build, estimate, send and confirm the transaction. -/
def callTransferToMeson (mesonContractAddress : String) (encodedSwap : EncodeSwapResult)
    (amount : String) (transferContractAddress : Option String) (deployIfMissing : Bool)
    (deployOut : Except String String) (gasOut : Except String Nat)
    (sendOut : Except String String) (confirmOut : Except String Unit) :
    List Effect × Except CliError String :=
  if !truthy transferContractAddress && deployIfMissing then
    match deployOut with
    | .error m => ([.deployContractReq mesonContractAddress], .error (.ethersError m))
    | .ok deployedAddr =>
      let r := executeTransferTx gasOut sendOut confirmOut
      (.deployContractReq mesonContractAddress :: r.1, r.2)
  else if !truthy transferContractAddress then
    ([], .error .missingIntermediaryContract)
  else
    executeTransferTx gasOut sendOut confirmOut

/-- Embedding of `cli.ts` runContractBridge initiator backfill: set the initiator locally
exactly when the relayer response carries no (truthy) initiator. -/
def backfillInitiator (ed : EncodeSwapResult) (initiator : String) : EncodeSwapResult :=
  if !truthy ed.initiator then { ed with initiator := some initiator } else ed

/-- JavaScript `a || b` on optional strings (empty string is falsy). -/
def jsOr (a b : Option String) : Option String := if truthy a then a else b

/-- CLI bridge options shared by both commands (`src/types.ts` BridgeOptions). -/
structure BridgeOptions where
  fromCT : String
  toCT : String
  amount : String
  recipient : String
  privateKey : Option String := none
  dryRun : Bool := false
  debug : Bool := false
deriving DecidableEq, Repr

/-- Terminal outcome of the EOA flow. -/
inductive BridgeOutcome where
  | dryRunComplete (encoded signature recipient fromAddress : String)
  | submitted (swapId : String)
deriving DecidableEq, Repr

/-- What the contract flow's dry-run report says about the intermediary contract. -/
inductive IntermediaryReport where
  | providedAddr (addr : String)
  | willDeploy
  | notRequested
deriving DecidableEq, Repr

/-- Terminal outcome of the contract flow. -/
inductive ContractBridgeOutcome where
  | dryRunComplete (encodedData : EncodeSwapResult) (mesonContractAddress : String)
      (report : IntermediaryReport)
  | txSubmitted (txHash : String) (encodedData : EncodeSwapResult)
deriving DecidableEq, Repr

/-- Embedding of `cli.ts` runBridge (EOA pathway): key resolution, registry and limit
fetches, validation, encode, sign, then dry-run stop or submission. Returns
the outbound effect trace together with the terminal outcome. -/
def runBridge (opts : BridgeOptions) (envKey : Option String)
    (deriveA : String → String) (signH : String → String → String)
    (chainsOut : HttpOutcome (List Chain)) (limitsOut : HttpOutcome (List ChainLimit))
    (encodeOut : HttpOutcome EncodeSwapResult) (submitOut : HttpOutcome SwapResult) :
    List Effect × Except CliError BridgeOutcome :=
  let key := jsOr opts.privateKey envKey
  if !truthy key then ([], .error .missingPrivateKey)
  else
    let privateKey := key.getD ""
    let fromAddress := deriveA privateKey
    match getSupportedChains chainsOut with
    | .error e => ([.fetchChainsReq], .error e)
    | .ok supportedChains =>
      match getSwapLimits limitsOut with
      | .error e => ([.fetchChainsReq, .fetchLimitsReq], .error e)
      | .ok swapLimits =>
        let fromChain := (splitColon opts.fromCT).getD 0 ""
        let fromToken := (splitColon opts.fromCT).getD 1 ""
        let toChain := (splitColon opts.toCT).getD 0 ""
        let toToken := (splitColon opts.toCT).getD 1 ""
        let amountFloat := parseFloat opts.amount
        match validateChainToken supportedChains fromChain fromToken "source" with
        | some e => ([.fetchChainsReq, .fetchLimitsReq], .error (.chainToken e))
        | none =>
          match validateChainToken supportedChains toChain toToken "destination" with
          | some e => ([.fetchChainsReq, .fetchLimitsReq], .error (.chainToken e))
          | none =>
            match validateAmount swapLimits toChain toToken amountFloat with
            | .failed e => ([.fetchChainsReq, .fetchLimitsReq], .error e)
            | _ =>
              let payload := buildEncodePayload opts.fromCT opts.toCT opts.amount
                fromAddress opts.recipient false none
              match encodeSwapApi encodeOut with
              | .error e =>
                ([.fetchChainsReq, .fetchLimitsReq, .encodeReq payload], .error e)
              | .ok encodedData =>
                if encodedData.encoded == "" || encodedData.signingRequest.isNone then
                  ([.fetchChainsReq, .fetchLimitsReq, .encodeReq payload],
                    .error .encodeMissingData)
                else
                  let hash := (encodedData.signingRequest.map SigningRequest.hash).getD ""
                  let signature := signH hash privateKey
                  if opts.dryRun then
                    ([.fetchChainsReq, .fetchLimitsReq, .encodeReq payload, .signOp hash],
                      .ok (.dryRunComplete encodedData.encoded signature opts.recipient
                        fromAddress))
                  else
                    match submitSwapApi submitOut with
                    | .error e =>
                      ([.fetchChainsReq, .fetchLimitsReq, .encodeReq payload, .signOp hash,
                        .submitSwapReq encodedData.encoded], .error e)
                    | .ok swapResult =>
                      ([.fetchChainsReq, .fetchLimitsReq, .encodeReq payload, .signOp hash,
                        .submitSwapReq encodedData.encoded],
                        .ok (.submitted swapResult.swapId))

/-- Embedding of `cli.ts` runContractBridge (contract pathway): key resolution, fetches and
validation, relayer-contract resolution, optional deployment (skipped in
dry-run), encode with the contract flag, initiator backfill, then dry-run stop
or the on-chain transferToMeson call. -/
def runContractBridge (opts : BridgeOptions)
    (mesonContractOption transferContractOption : Option String)
    (deployIfMissing : Bool) (rpcUrl : String) (envKey : Option String)
    (deriveA : String → String)
    (chainsOut : HttpOutcome (List Chain)) (limitsOut : HttpOutcome (List ChainLimit))
    (encodeOut : HttpOutcome EncodeSwapResult)
    (deployOut : Except String String) (gasOut : Except String Nat)
    (sendOut : Except String String) (confirmOut : Except String Unit) :
    List Effect × Except CliError ContractBridgeOutcome :=
  let key := jsOr opts.privateKey envKey
  if !truthy key then ([], .error .missingPrivateKey)
  else
    let privateKey := key.getD ""
    let fromAddress := deriveA privateKey
    match getSupportedChains chainsOut with
    | .error e => ([.fetchChainsReq], .error e)
    | .ok supportedChains =>
      match getSwapLimits limitsOut with
      | .error e => ([.fetchChainsReq, .fetchLimitsReq], .error e)
      | .ok swapLimits =>
        let fromChain := (splitColon opts.fromCT).getD 0 ""
        let fromToken := (splitColon opts.fromCT).getD 1 ""
        let toChain := (splitColon opts.toCT).getD 0 ""
        let toToken := (splitColon opts.toCT).getD 1 ""
        let amountFloat := parseFloat opts.amount
        match validateChainToken supportedChains fromChain fromToken "source" with
        | some e => ([.fetchChainsReq, .fetchLimitsReq], .error (.chainToken e))
        | none =>
          match validateChainToken supportedChains toChain toToken "destination" with
          | some e => ([.fetchChainsReq, .fetchLimitsReq], .error (.chainToken e))
          | none =>
            match validateAmount swapLimits toChain toToken amountFloat with
            | .failed e => ([.fetchChainsReq, .fetchLimitsReq], .error e)
            | _ =>
              match resolveMesonContract supportedChains fromChain mesonContractOption with
              | .error e => ([.fetchChainsReq, .fetchLimitsReq], .error e)
              | .ok mesonContractAddress =>
                let deployStep : List Effect × Except CliError (Option String) :=
                  if !truthy transferContractOption && deployIfMissing && !opts.dryRun then
                    match deployOut with
                    | .error m =>
                      ([.deployContractReq mesonContractAddress], .error (.ethersError m))
                    | .ok addr => ([.deployContractReq mesonContractAddress], .ok (some addr))
                  else ([], .ok transferContractOption)
                match h : deployStep.2 with
                | .error e => ([.fetchChainsReq, .fetchLimitsReq] ++ deployStep.1, .error e)
                | .ok fromContractAddress0 =>
                  let encodingFromAddress :=
                    if truthy fromContractAddress0 then fromContractAddress0.getD ""
                    else fromAddress
                  let initiator := fromAddress
                  let payload := buildEncodePayload opts.fromCT opts.toCT opts.amount
                    encodingFromAddress opts.recipient true none
                  let trace0 := [Effect.fetchChainsReq, Effect.fetchLimitsReq] ++ deployStep.1
                    ++ [Effect.encodeReq payload]
                  match encodeSwapApi encodeOut with
                  | .error e => (trace0, .error e)
                  | .ok encodedData0 =>
                    let encodedData := backfillInitiator encodedData0 initiator
                    if encodedData.encoded == "" then (trace0, .error .encodeMissingData)
                    else
                      let fromContractAddress :=
                        if truthy encodedData.fromContract && !truthy fromContractAddress0
                        then encodedData.fromContract
                        else fromContractAddress0
                      if opts.dryRun then
                        let report : IntermediaryReport :=
                          if truthy transferContractOption then
                            .providedAddr (transferContractOption.getD "")
                          else if deployIfMissing then .willDeploy
                          else .notRequested
                        (trace0, .ok (.dryRunComplete encodedData mesonContractAddress report))
                      else
                        let r := callTransferToMeson mesonContractAddress encodedData
                          opts.amount fromContractAddress
                          (deployIfMissing && !truthy fromContractAddress)
                          deployOut gasOut sendOut confirmOut
                        (trace0 ++ r.1,
                          match r.2 with
                          | .error e => .error e
                          | .ok txHash => .ok (.txSubmitted txHash encodedData))

/-- Which effects are relayer submission requests. -/
def isSubmissionEffect : Effect → Bool
  | .submitSwapReq _ => true
  | _ => false

/-- Which effects are on-chain mutations or their preparation (deployment,
gas estimation, broadcast, confirmation wait). -/
def isOnChainEffect : Effect → Bool
  | .deployContractReq _ => true
  | .estimateGasReq => true
  | .sendTxReq _ => true
  | .confirmWait => true
  | _ => false

/-- Which effects are encode requests. -/
def isEncodeEffect : Effect → Bool
  | .encodeReq _ => true
  | _ => false

/-- The final EncodeSwapResult carried by a successful contract-flow outcome. -/
def resultEncodedData : Except CliError ContractBridgeOutcome → Option EncodeSwapResult
  | .ok (.dryRunComplete ed _ _) => some ed
  | .ok (.txSubmitted _ ed) => some ed
  | _ => none

/-- Fixture: a token with no limits. -/
def usdcToken : Token := { id := "usdc" }

/-- Fixture: registry entry for an `eth` chain carrying `usdc`. -/
def ethChain : Chain :=
  { id := "eth", name := "Ethereum", chainId := "1", address := "0xA", tokens := [usdcToken] }

/-- Fixture: registry entry for a `bsc` chain carrying `usdc`. -/
def bscChain : Chain :=
  { id := "bsc", name := "BSC", chainId := "56", address := "0xB", tokens := [usdcToken] }

/-- Fixture: a two-chain registry snapshot. -/
def testChains : List Chain := [ethChain, bscChain]

/-- Fixture: `usdc` limit entry with min 1 and max 10. -/
def usdcLimitTok : Token := { id := "usdc", min := some "1", max := some "10" }

/-- Fixture: limit entry for the `bsc` chain. -/
def bscLimit : ChainLimit := { id := "bsc", name := "BSC", tokens := [usdcLimitTok] }

/-- Fixture: a limits snapshot. -/
def testLimits : List ChainLimit := [bscLimit]

/-- Fixture: a zero fee breakdown. -/
def testFee : Fee := { serviceFee := "0", lpFee := "0", totalFee := "0" }

/-- Fixture: encode result without a signing request (contract flow). -/
def testEncoded : EncodeSwapResult := { encoded := "0xE", recipient := "0xR", fee := testFee }

/-- Fixture: encode result with a signing request (EOA flow). -/
def testEncodedEoaFlow : EncodeSwapResult :=
  { testEncoded with signingRequest := some { message := "m", hash := "0xH" } }

/-- Fixture: the contract-flow encode result after the local initiator backfill. -/
def testEncodedBackfilled : EncodeSwapResult :=
  { testEncoded with initiator := some "0xCALLER" }

/-- Fixture: the encode payload of the contract-flow run with a provided
intermediary contract. -/
def testPayload : EncodeSwapParams :=
  { fromCT := "eth:usdc", toCT := "bsc:usdc", amount := "2", fromAddress := "0xT",
    recipient := "0xR", fromContract := some true, dataToContract := none }

/-- Fixture: bridge options for an eth-to-bsc usdc swap. -/
def testOpts : BridgeOptions :=
  { fromCT := "eth:usdc", toCT := "bsc:usdc", amount := "2", recipient := "0xR",
    privateKey := some "k" }

/-- Fixture: successful registry response. -/
def chainsOk : HttpOutcome (List Chain) := .ok { result := some testChains }

/-- Fixture: successful limits response. -/
def limitsOk : HttpOutcome (List ChainLimit) := .ok { result := some testLimits }

/-- Fixture: successful encode response (contract flow shape). -/
def encodeOk : HttpOutcome EncodeSwapResult := .ok { result := some testEncoded }

/-- Fixture: successful encode response (EOA flow shape). -/
def encodeOkEoaFlow : HttpOutcome EncodeSwapResult := .ok { result := some testEncodedEoaFlow }

/-- Fixture: successful submission response. -/
def submitOk : HttpOutcome SwapResult := .ok { result := some { swapId := "sw1" } }

/-- Fixture: a constant address derivation oracle. -/
def constDerive : String → String := fun _ => "0xCALLER"

/-- Fixture: a constant signing oracle. -/
def constSign : String → String → String := fun _ _ => "0xSIG"

/-- Fixture: the eth registry entry marked destination-only. -/
def ethChainDestOnly : Chain := { ethChain with destinationChainOnly := some true }

theorem JSNum.lt_nan (a : JSNum) : JSNum.lt a .nan = false := by cases a <;> rfl

theorem JSNum.nan_lt (a : JSNum) : JSNum.lt .nan a = false := by cases a <;> rfl

theorem JSNum.posInf_lt (a : JSNum) : JSNum.lt .posInf a = false := by cases a <;> rfl

theorem JSNum.lt_val_val (a b : ℚ) : JSNum.lt (.val a) (.val b) = decide (a < b) := rfl

/-- C4: validateAmount skips the check (no error) when no chain-limit or
token-limit entry matches; min defaults to 0 and max to unbounded when absent;
with a matching entry whose bounds parse to rationals, it fails exactly when
the amount is strictly below the minimum or strictly above the maximum, so
amounts equal to either bound are accepted. -/
theorem validateAmount_spec (limits : List ChainLimit) (chainId tokenId : String) :
    (∀ a, limits.find? (fun c => c.id == chainId) = none →
      validateAmount limits chainId tokenId a = .skippedNoChainLimit)
  ∧ (∀ a cl, limits.find? (fun c => c.id == chainId) = some cl →
      cl.tokens.find? (fun t => t.id == tokenId) = none →
      validateAmount limits chainId tokenId a = .skippedNoTokenLimit)
  ∧ (∀ t : Token, t.min = none → effectiveMin t = .val 0)
  ∧ (∀ t : Token, t.max = none → effectiveMax t = .posInf)
  ∧ (∀ cl tl (q mq : ℚ), limits.find? (fun c => c.id == chainId) = some cl →
      cl.tokens.find? (fun t => t.id == tokenId) = some tl →
      effectiveMin tl = .val mq → effectiveMax tl = .posInf →
      ((validateAmount limits chainId tokenId (.val q)).isFailed = true ↔ q < mq))
  ∧ (∀ cl tl (q mq Mq : ℚ), limits.find? (fun c => c.id == chainId) = some cl →
      cl.tokens.find? (fun t => t.id == tokenId) = some tl →
      effectiveMin tl = .val mq → effectiveMax tl = .val Mq →
      ((validateAmount limits chainId tokenId (.val q)).isFailed = true ↔ q < mq ∨ Mq < q))
  ∧ (∀ cl tl (mq Mq : ℚ), limits.find? (fun c => c.id == chainId) = some cl →
      cl.tokens.find? (fun t => t.id == tokenId) = some tl →
      effectiveMin tl = .val mq → effectiveMax tl = .val Mq → mq ≤ Mq →
      (validateAmount limits chainId tokenId (.val mq)).isFailed = false
      ∧ (validateAmount limits chainId tokenId (.val Mq)).isFailed = false) := by
  refine ⟨?_, ?_, ?_, ?_, ?_, ?_, ?_⟩
  · intro a h
    simp [validateAmount, h]
  · intro a cl h1 h2
    simp [validateAmount, h1, h2]
  · intro t h
    simp [effectiveMin, truthy, h]
  · intro t h
    simp [effectiveMax, truthy, h]
  · intro cl tl q mq h1 h2 hmin hmax
    by_cases hq : q < mq <;>
      simp [validateAmount, h1, h2, hmin, hmax, JSNum.gt, JSNum.lt_val_val, JSNum.posInf_lt,
        AmountCheck.isFailed, hq]
  · intro cl tl q mq Mq h1 h2 hmin hmax
    by_cases hq : q < mq <;> by_cases hQ : Mq < q <;>
      simp [validateAmount, h1, h2, hmin, hmax, JSNum.gt, JSNum.lt_val_val,
        AmountCheck.isFailed, hq, hQ]
  · intro cl tl mq Mq h1 h2 hmin hmax hle
    constructor <;>
      simp [validateAmount, h1, h2, hmin, hmax, JSNum.gt, JSNum.lt_val_val,
        AmountCheck.isFailed, lt_irrefl, not_lt.mpr hle]

/-- C4 witness: on the concrete fixtures the check is skipped for an absent
chain, fails below the minimum, and passes at both bounds. -/
theorem validateAmount_spec_witness :
    validateAmount [] "bsc" "usdc" (.val 1) = .skippedNoChainLimit
  ∧ (validateAmount testLimits "bsc" "usdc" (.val 0)).isFailed = true
  ∧ (validateAmount testLimits "bsc" "usdc" (.val 1)).isFailed = false
  ∧ (validateAmount testLimits "bsc" "usdc" (.val 10)).isFailed = false := by
  have h0 := validateAmount_spec [] "bsc" "usdc"
  have h := validateAmount_spec testLimits "bsc" "usdc"
  have hb := h.2.2.2.2.2.2 bscLimit usdcLimitTok 1 10 (by decide) (by decide)
    (by decide) (by decide) (by norm_num)
  exact ⟨h0.1 (.val 1) rfl,
    (h.2.2.2.2.2.1 bscLimit usdcLimitTok 0 1 10 (by decide) (by decide) (by decide)
      (by decide)).mpr (Or.inl (by norm_num)),
    hb.1, hb.2⟩

/-- C5: validateChainToken reports an unsupported chain exactly when no
registry entry matches the chain id, an unsupported token exactly when the
matched entry has no token with the token id, succeeds exactly when both
match, and the role argument never changes which outcome occurs. -/
theorem validateChainToken_spec (chains : List Chain) (chainId tokenId role : String) :
    (validateChainToken chains chainId tokenId role = some (.unsupportedChain role chainId)
      ↔ ∀ c ∈ chains, c.id ≠ chainId)
  ∧ (validateChainToken chains chainId tokenId role = some (.unsupportedToken role tokenId chainId)
      ↔ ∃ c, chains.find? (fun x => x.id == chainId) = some c ∧ ∀ t ∈ c.tokens, t.id ≠ tokenId)
  ∧ (validateChainToken chains chainId tokenId role = none
      ↔ ∃ c, chains.find? (fun x => x.id == chainId) = some c ∧ ∃ t ∈ c.tokens, t.id = tokenId)
  ∧ (∀ role2, vctClass (validateChainToken chains chainId tokenId role)
      = vctClass (validateChainToken chains chainId tokenId role2)) := by
  rcases hc : chains.find? (fun c => c.id == chainId) with _ | c
  · have hnone : ∀ x ∈ chains, ¬x.id = chainId := by
      intro x hx
      simpa using List.find?_eq_none.mp hc x hx
    refine ⟨?_, ?_, ?_, ?_⟩ <;> simp [validateChainToken, hc, vctClass]
    exact hnone
  · have hmem := List.mem_of_find?_eq_some hc
    have hcid : c.id = chainId := by simpa using List.find?_some hc
    rcases ht : c.tokens.find? (fun t => t.id == tokenId) with _ | t
    · have htok : ∀ x ∈ c.tokens, ¬x.id = tokenId := by
        intro x hx
        simpa using List.find?_eq_none.mp ht x hx
      refine ⟨?_, ?_, ?_, ?_⟩ <;> simp [validateChainToken, hc, ht, vctClass]
      · exact ⟨c, hmem, hcid⟩
      · exact htok
      · exact htok
    · have hmemt := List.mem_of_find?_eq_some ht
      have htid : t.id = tokenId := by simpa using List.find?_some ht
      refine ⟨?_, ?_, ?_, ?_⟩ <;> simp [validateChainToken, hc, ht, vctClass]
      · exact ⟨c, hmem, hcid⟩
      · exact ⟨t, hmemt, htid⟩
      · exact ⟨t, hmemt, htid⟩

/-- C5 witness: on the concrete registry the role only travels into the error,
a present pair passes, and an absent chain is reported unsupported. -/
theorem validateChainToken_spec_witness :
    vctClass (validateChainToken testChains "eth" "usdc" "source")
      = vctClass (validateChainToken testChains "eth" "usdc" "destination")
  ∧ validateChainToken testChains "eth" "usdc" "source" = none
  ∧ validateChainToken testChains "sol" "usdc" "source"
      = some (.unsupportedChain "source" "sol") := by
  have h := validateChainToken_spec testChains "eth" "usdc" "source"
  have h2 := validateChainToken_spec testChains "sol" "usdc" "source"
  exact ⟨h.2.2.2 "destination",
    h.2.2.1.mpr ⟨ethChain, by decide, usdcToken, by decide, rfl⟩,
    h2.1.mpr (by decide)⟩

/-- Auxiliary: rewriting the destination-only flag of every registry entry
commutes with the chain lookup. -/
theorem find?_id_map (chains : List Chain) (chainId : String) (f : Chain → Option Bool) :
    (chains.map (fun c => { c with destinationChainOnly := f c })).find?
        (fun x => x.id == chainId)
      = (chains.find? (fun x => x.id == chainId)).map
        (fun c => { c with destinationChainOnly := f c }) := by
  rw [List.find?_map]
  rfl

/-- C9: validateChainToken never inspects the destination-only flag: a chain
marked destination-only is accepted as source whenever the pair is present,
and rewriting the flag arbitrarily never changes the validation result. -/
theorem destinationOnly_ignored :
    (∀ (chains : List Chain) (c : Chain) (chainId tokenId : String),
      chains.find? (fun x => x.id == chainId) = some c →
      c.destinationChainOnly = some true →
      (∃ t ∈ c.tokens, t.id = tokenId) →
      validateChainToken chains chainId tokenId "source" = none)
  ∧ (∀ (chains : List Chain) (chainId tokenId role : String) (f : Chain → Option Bool),
      validateChainToken (chains.map (fun c => { c with destinationChainOnly := f c }))
        chainId tokenId role
      = validateChainToken chains chainId tokenId role) := by
  constructor
  · intro chains c chainId tokenId hc hdest ⟨t, hmem, htid⟩
    have : c.tokens.find? (fun t => t.id == tokenId) ≠ none := by
      intro hn
      exact absurd htid (by simpa using List.find?_eq_none.mp hn t hmem)
    rcases ht : c.tokens.find? (fun t => t.id == tokenId) with _ | t2
    · exact absurd ht this
    · simp [validateChainToken, hc, ht]
  · intro chains chainId tokenId role f
    unfold validateChainToken
    rw [find?_id_map]
    generalize chains.find? (fun x => x.id == chainId) = o
    cases o <;> rfl

/-- C9 witness: a destination-only chain passes source-side validation, and
marking every entry destination-only does not change the result. -/
theorem destinationOnly_ignored_witness :
    validateChainToken [ethChainDestOnly] "eth" "usdc" "source" = none
  ∧ validateChainToken
      ([ethChain].map (fun c => { c with destinationChainOnly := (fun _ => some true) c }))
      "eth" "usdc" "source"
    = validateChainToken [ethChain] "eth" "usdc" "source" := by
  exact ⟨destinationOnly_ignored.1 [ethChainDestOnly] ethChainDestOnly "eth" "usdc"
      (by decide) rfl ⟨usdcToken, by decide, rfl⟩,
    destinationOnly_ignored.2 [ethChain] "eth" "usdc" "source" (fun _ => some true)⟩

/-- C10: a NaN amount (the parse of a non-numeric amount string) passes
validateAmount even when a matching token-limit entry exists, because every
IEEE comparison with NaN is false. -/
theorem nan_amount_passes :
    (∀ (limits : List ChainLimit) (chainId tokenId : String) (cl : ChainLimit) (tl : Token),
      limits.find? (fun c => c.id == chainId) = some cl →
      cl.tokens.find? (fun t => t.id == tokenId) = some tl →
      validateAmount limits chainId tokenId .nan = .passed)
  ∧ parseFloat "abc" = .nan
  ∧ parseFloat "" = .nan := by
  refine ⟨?_, by decide, by decide⟩
  intro limits chainId tokenId cl tl h1 h2
  simp [validateAmount, h1, h2, JSNum.gt, JSNum.nan_lt, JSNum.lt_nan]

/-- C10 witness: NaN passes on the concrete limits snapshot with a matching
entry whose bounds are 1 and 10. -/
theorem nan_amount_passes_witness :
    validateAmount testLimits "bsc" "usdc" .nan = .passed :=
  nan_amount_passes.1 testLimits "bsc" "usdc" bscLimit usdcLimitTok (by decide) (by decide)

/-- C8: the relayer-contract address is resolved by ordered fallback: a truthy
override wins; otherwise the source chain's registry address is used; when the
override is absent and the registry yields no address, resolution fails with
the contract-address-not-found error. -/
theorem contractAddress_resolution (chains : List Chain) (fromChain : String)
    (ov : Option String) :
    (truthy ov = true → resolveMesonContract chains fromChain ov = .ok (ov.getD ""))
  ∧ (∀ c, truthy ov = false → chains.find? (fun x => x.id == fromChain) = some c →
      c.address ≠ "" → resolveMesonContract chains fromChain ov = .ok c.address)
  ∧ (truthy ov = false → (∀ c ∈ chains, c.id ≠ fromChain) →
      resolveMesonContract chains fromChain ov = .error (.contractAddressNotFound fromChain))
  ∧ (∀ c, truthy ov = false → chains.find? (fun x => x.id == fromChain) = some c →
      c.address = "" →
      resolveMesonContract chains fromChain ov = .error (.contractAddressNotFound fromChain))
  ∧ (∀ c, chains.find? (fun x => x.id == fromChain) = some c →
      findContractAddress chains fromChain = some c.address)
  ∧ ((∀ c ∈ chains, c.id ≠ fromChain) → findContractAddress chains fromChain = none) := by
  refine ⟨?_, ?_, ?_, ?_, ?_, ?_⟩
  · intro h
    simp [resolveMesonContract, h]
  · intro c h hc ha
    simp [resolveMesonContract, h, findContractAddress, hc, ha]
  · intro h hn
    have : chains.find? (fun x => x.id == fromChain) = none :=
      List.find?_eq_none.mpr (by intro x hx; simpa using hn x hx)
    simp [resolveMesonContract, h, findContractAddress, this]
  · intro c h hc ha
    simp [resolveMesonContract, h, findContractAddress, hc, ha]
  · intro c hc
    simp [findContractAddress, hc]
  · intro hn
    have : chains.find? (fun x => x.id == fromChain) = none :=
      List.find?_eq_none.mpr (by intro x hx; simpa using hn x hx)
    simp [findContractAddress, this]

/-- C8 witness: on the concrete registry the override wins, the registry
address is used otherwise, and an unknown chain fails resolution. -/
theorem contractAddress_resolution_witness :
    resolveMesonContract testChains "eth" (some "0xM") = .ok "0xM"
  ∧ resolveMesonContract testChains "eth" none = .ok "0xA"
  ∧ resolveMesonContract testChains "sol" none = .error (.contractAddressNotFound "sol") := by
  have h1 := contractAddress_resolution testChains "eth" (some "0xM")
  have h2 := contractAddress_resolution testChains "eth" none
  have h3 := contractAddress_resolution testChains "sol" none
  exact ⟨h1.1 (by decide), h2.2.1 ethChain (by decide) (by decide) (by decide),
    h3.2.2.1 (by decide) (by decide)⟩

/-- C6: the gas limit attached to the transaction sent by the contract pathway
is the estimate with a 20 percent buffer computed in exact integer arithmetic,
equal to the rational floor of `E * 12 / 10`; in particular 100000 yields
120000 and 100001 yields 120001; every broadcast effect of callTransferToMeson
carries exactly this buffered limit for the estimate the oracle returned. -/
theorem gas_limit_spec :
    (∀ E : ℕ, gasWithBuffer E = ⌊((E : ℚ) * 12) / 10⌋₊)
  ∧ gasWithBuffer 100000 = 120000
  ∧ gasWithBuffer 100001 = 120001
  ∧ (∀ mca ed amt tca dim dOut gOut sOut cfOut g,
      Effect.sendTxReq g ∈ (callTransferToMeson mca ed amt tca dim dOut gOut sOut cfOut).1 →
      ∃ E, gOut = .ok E ∧ g = gasWithBuffer E) := by
  refine ⟨?_, by decide, by decide, ?_⟩
  · intro E
    rw [show ((E : ℚ) * 12) = ((E * 12 : ℕ) : ℚ) by push_cast; ring,
      show (10 : ℚ) = ((10 : ℕ) : ℚ) by norm_cast,
      Nat.floor_div_eq_div]
    rfl
  · intro mca ed amt tca dim dOut gOut sOut cfOut g hmem
    unfold callTransferToMeson executeTransferTx at hmem
    rcases gOut with e | E
    · rcases dOut with m | a <;> rcases sOut with m2 | h2 <;> rcases cfOut with m3 | u <;>
        (repeat' split at hmem) <;> simp_all
    · refine ⟨E, rfl, ?_⟩
      rcases dOut with m | a <;> rcases sOut with m2 | h2 <;> rcases cfOut with m3 | u <;>
        (repeat' split at hmem) <;> simp_all

/-- C6 witness: the buffered limit for the concrete estimate 100, and a
concrete contract call whose broadcast effect carries it. -/
theorem gas_limit_spec_witness :
    gasWithBuffer 100001 = 120001
  ∧ ∃ E, (Except.ok 100 : Except String Nat) = .ok E ∧ 120 = gasWithBuffer E := by
  have h := gas_limit_spec
  exact ⟨h.2.2.1,
    h.2.2.2 "0xM" testEncoded "2" (some "0xT") false (.ok "0xD") (.ok 100) (.ok "0xTX")
      (.ok ()) 120 (by decide)⟩

/-- C7: relayer responses are handled uniformly by every api operation: a
success envelope yields the result unchanged, an error envelope fails with a
service error carrying the relayer-supplied message, an unrecognized shape
fails with a protocol error, and a network failure fails with a transport
error wrapping it; the registry, encode and submission operations all use
exactly this handling. -/
theorem relayer_envelope_handling :
    (∀ (T : Type) (resp : ApiResponse T) (r : T) (ctx : String),
      resp.result = some r → handleResponse (.ok resp) ctx = .ok r)
  ∧ (∀ (T : Type) (resp : ApiResponse T) (e : ApiErrorBody) (ctx : String),
      resp.result = none → resp.error = some e →
      handleResponse (.ok resp) ctx = .error (.serviceError ctx e.message))
  ∧ (∀ (T : Type) (resp : ApiResponse T) (ctx : String),
      resp.result = none → resp.error = none →
      handleResponse (.ok resp) ctx = .error .protocolError)
  ∧ (∀ (T : Type) (m ctx : String),
      handleResponse (HttpOutcome.networkError m : HttpOutcome T) ctx
        = .error (.transportError m))
  ∧ (∀ out, getSupportedChains out = handleResponse out "Error fetching supported chains: ")
  ∧ (∀ out, getSwapLimits out = handleResponse out "Error fetching swap limits: ")
  ∧ (∀ out, encodeSwapApi out = handleResponse out "Error encoding swap: ")
  ∧ (∀ out, submitSwapApi out = handleResponse out "Error submitting swap: ") := by
  refine ⟨?_, ?_, ?_, ?_, fun _ => rfl, fun _ => rfl, fun _ => rfl, fun _ => rfl⟩
  · intro T resp r ctx hr
    simp [handleResponse, hr]
  · intro T resp e ctx hr he
    simp [handleResponse, hr, he]
  · intro T resp ctx hr he
    simp [handleResponse, hr, he]
  · intro T m ctx
    rfl

/-- C7 witness: the four envelope cases at concrete responses. -/
theorem relayer_envelope_handling_witness :
    handleResponse (HttpOutcome.ok ({ result := some 3 } : ApiResponse Nat)) "c" = .ok 3
  ∧ handleResponse
      (HttpOutcome.ok ({ error := some { code := 1, message := "boom" } } : ApiResponse Nat)) "c"
      = .error (.serviceError "c" "boom")
  ∧ handleResponse (HttpOutcome.ok ({} : ApiResponse Nat)) "c" = .error .protocolError
  ∧ handleResponse (HttpOutcome.networkError "down" : HttpOutcome Nat) "c"
      = .error (.transportError "down") := by
  have h := relayer_envelope_handling
  exact ⟨h.1 Nat { result := some 3 } 3 "c" rfl,
    h.2.1 Nat { error := some { code := 1, message := "boom" } } { code := 1, message := "boom" }
      "c" rfl rfl,
    h.2.2.1 Nat {} "c" rfl rfl,
    h.2.2.2.1 Nat "down" "c"⟩

set_option maxHeartbeats 4000000 in
/-- C1: with the dry-run flag set, the EOA flow never issues a submission
request (on success its trace is exactly fetch, fetch, encode, sign), and the
contract flow never deploys a contract, estimates gas, broadcasts or submits
(on success its trace is exactly fetch, fetch, encode). -/
theorem dry_run_never_submits :
    (∀ opts envKey dA sH cOut lOut eOut sOut, opts.dryRun = true →
      ((runBridge opts envKey dA sH cOut lOut eOut sOut).1.all
          (fun e => !isSubmissionEffect e) = true
        ∧ ∀ o, (runBridge opts envKey dA sH cOut lOut eOut sOut).2 = .ok o →
            ∃ p h, (runBridge opts envKey dA sH cOut lOut eOut sOut).1
              = [.fetchChainsReq, .fetchLimitsReq, .encodeReq p, .signOp h]))
  ∧ (∀ opts mco tco dim rpc envKey dA cOut lOut eOut dOut gOut sOut cfOut,
      opts.dryRun = true →
      ((runContractBridge opts mco tco dim rpc envKey dA cOut lOut eOut dOut gOut sOut
            cfOut).1.all (fun e => !isSubmissionEffect e && !isOnChainEffect e) = true
        ∧ ∀ o, (runContractBridge opts mco tco dim rpc envKey dA cOut lOut eOut dOut gOut
            sOut cfOut).2 = .ok o →
            ∃ p, (runContractBridge opts mco tco dim rpc envKey dA cOut lOut eOut dOut gOut
              sOut cfOut).1 = [.fetchChainsReq, .fetchLimitsReq, .encodeReq p])) := by
  constructor
  · intro opts envKey dA sH cOut lOut eOut sOut hdry
    unfold runBridge
    cases hk : truthy (jsOr opts.privateKey envKey) <;> simp only [hk] <;> repeat' split
    all_goals simp_all [isSubmissionEffect, isOnChainEffect]
  · intro opts mco tco dim rpc envKey dA cOut lOut eOut dOut gOut sOut cfOut hdry
    unfold runContractBridge
    cases hk : truthy (jsOr opts.privateKey envKey) <;> simp only [hk] <;> repeat' split
    all_goals simp_all [isSubmissionEffect, isOnChainEffect]

/-- C1 witness: concrete dry runs of both flows issue no submission and no
on-chain effect, with the expected traces. -/
theorem dry_run_never_submits_witness :
    ((runBridge { testOpts with dryRun := true } none constDerive constSign chainsOk limitsOk
        encodeOkEoaFlow submitOk).1.all (fun e => !isSubmissionEffect e) = true)
  ∧ (∃ p h, (runBridge { testOpts with dryRun := true } none constDerive constSign chainsOk
        limitsOk encodeOkEoaFlow submitOk).1
      = [.fetchChainsReq, .fetchLimitsReq, .encodeReq p, .signOp h])
  ∧ ((runContractBridge { testOpts with dryRun := true } (some "0xM") none false "rpc" none
        constDerive chainsOk limitsOk encodeOk (.ok "0xD") (.ok 100) (.ok "0xTX")
        (.ok ())).1.all (fun e => !isSubmissionEffect e && !isOnChainEffect e) = true)
  ∧ (∃ p, (runContractBridge { testOpts with dryRun := true } (some "0xM") none false "rpc"
        none constDerive chainsOk limitsOk encodeOk (.ok "0xD") (.ok 100) (.ok "0xTX")
        (.ok ())).1 = [.fetchChainsReq, .fetchLimitsReq, .encodeReq p]) := by
  have h := dry_run_never_submits
  have h1 := h.1 { testOpts with dryRun := true } none constDerive constSign chainsOk limitsOk
    encodeOkEoaFlow submitOk rfl
  have h2 := h.2 { testOpts with dryRun := true } (some "0xM") none false "rpc" none
    constDerive chainsOk limitsOk encodeOk (.ok "0xD") (.ok 100) (.ok "0xTX") (.ok ()) rfl
  exact ⟨h1.1, h1.2 (.dryRunComplete "0xE" "0xSIG" "0xR" "0xCALLER") (by decide),
    h2.1, h2.2 (.dryRunComplete testEncodedBackfilled "0xM" .notRequested) (by decide)⟩

/-- Auxiliary: relayer-response handling never raises the missing-intermediary
error. -/
theorem handleResponse_ne_missing {T : Type} (out : HttpOutcome T) (ctx : String) :
    ¬handleResponse out ctx = .error .missingIntermediaryContract := by
  unfold handleResponse
  rcases out with resp | m
  · rcases hr : resp.result <;> rcases he : resp.error <;> simp [hr, he]
  · simp

/-- Auxiliary: amount validation never raises the missing-intermediary error. -/
theorem validateAmount_ne_missing (l : List ChainLimit) (c t : String) (a : JSNum) :
    ¬validateAmount l c t a = .failed .missingIntermediaryContract := by
  unfold validateAmount
  repeat' split
  all_goals try simp
  all_goals (split <;> simp)

/-- Auxiliary: relayer-contract resolution never raises the
missing-intermediary error. -/
theorem resolveMesonContract_ne_missing (chains : List Chain) (fc : String)
    (ov : Option String) :
    ¬resolveMesonContract chains fc ov = .error .missingIntermediaryContract := by
  unfold resolveMesonContract findContractAddress
  repeat' split
  all_goals simp

/-- C2 counterexample: with no intermediary override, deploy-if-missing unset
and dry-run unset, the concrete run does fail with the missing-intermediary
error, but only after the encode request has been issued, contradicting the
claimed failure at the resolve/deploy step before the encode request. -/
theorem missing_intermediary_after_encode_cx :
    (runContractBridge testOpts (some "0xM") none false "rpc" none constDerive chainsOk
        limitsOk encodeOk (.ok "0xD") (.ok 100) (.ok "0xTX") (.ok ())).2
      = .error .missingIntermediaryContract
  ∧ (runContractBridge testOpts (some "0xM") none false "rpc" none constDerive chainsOk
        limitsOk encodeOk (.ok "0xD") (.ok 100) (.ok "0xTX") (.ok ())).1.any isEncodeEffect
      = true := ⟨by decide, by decide⟩

set_option maxHeartbeats 8000000 in
/-- C2 amended: whenever the contract flow fails with the missing-intermediary
error, the intermediary override was untruthy, deploy-if-missing was unset,
and the encode request had already been issued (the failure occurs in the
contract-call step after encode, not at the resolve/deploy step); with dry-run
set, the same condition is only reported as not-requested, never raised. -/
theorem missing_intermediary_conditions (opts : BridgeOptions)
    (mco tco : Option String) (dim : Bool) (rpc : String) (envKey : Option String)
    (dA : String → String) (cOut : HttpOutcome (List Chain))
    (lOut : HttpOutcome (List ChainLimit)) (eOut : HttpOutcome EncodeSwapResult)
    (dOut : Except String String) (gOut : Except String Nat)
    (sOut : Except String String) (cfOut : Except String Unit) :
    ((runContractBridge opts mco tco dim rpc envKey dA cOut lOut eOut dOut gOut sOut
          cfOut).2 = .error .missingIntermediaryContract →
      truthy tco = false ∧ dim = false
      ∧ (runContractBridge opts mco tco dim rpc envKey dA cOut lOut eOut dOut gOut sOut
          cfOut).1.any isEncodeEffect = true)
  ∧ (∀ ed m rep, (runContractBridge opts mco tco dim rpc envKey dA cOut lOut eOut dOut gOut
        sOut cfOut).2 = .ok (.dryRunComplete ed m rep) →
      truthy tco = false → dim = false → rep = .notRequested) := by
  unfold runContractBridge callTransferToMeson executeTransferTx
  cases hk : truthy (jsOr opts.privateKey envKey) <;> simp only [hk] <;> repeat' split
  all_goals constructor
  all_goals (intro hres; simp_all [isEncodeEffect, getSupportedChains, getSwapLimits, encodeSwapApi, handleResponse_ne_missing, validateAmount_ne_missing, resolveMesonContract_ne_missing])

/-- C2 witness: the conditions extracted from the failing concrete run, and the
not-requested report of the corresponding dry run. -/
theorem missing_intermediary_conditions_witness :
    (truthy (none : Option String) = false ∧ false = false
      ∧ (runContractBridge testOpts (some "0xM") none false "rpc" none constDerive chainsOk
          limitsOk encodeOk (.ok "0xD") (.ok 100) (.ok "0xTX") (.ok ())).1.any isEncodeEffect
          = true)
  ∧ IntermediaryReport.notRequested = .notRequested := by
  have h := missing_intermediary_conditions testOpts (some "0xM") none false "rpc" none
    constDerive chainsOk limitsOk encodeOk (.ok "0xD") (.ok 100) (.ok "0xTX") (.ok ())
  have hd := missing_intermediary_conditions { testOpts with dryRun := true } (some "0xM")
    none false "rpc" none constDerive chainsOk limitsOk encodeOk (.ok "0xD") (.ok 100)
    (.ok "0xTX") (.ok ())
  exact ⟨h.1 (by decide),
    hd.2 testEncodedBackfilled "0xM" .notRequested (by decide) rfl rfl⟩

/-- C3 counterexample: a run that reaches the encode step with no intermediary
contract available sends the encode request with the contract flag set but with
the caller's own derived address as the encoding sender, contradicting the
claim that the sender is never the caller's own derived address. -/
theorem encode_sender_cx :
    (runContractBridge testOpts (some "0xM") none false "rpc" none constDerive chainsOk
        limitsOk encodeOk (.ok "0xD") (.ok 100) (.ok "0xTX") (.ok ())).1.any
      (fun e => match e with
        | .encodeReq p => p.fromAddress == constDerive "k" && p.fromContract == some true
        | _ => false) = true := by decide

/-- Auxiliary: the on-chain transfer call never issues an encode request. -/
theorem callTransferToMeson_no_encode (mca : String) (ed : EncodeSwapResult) (amt : String)
    (tca : Option String) (dim : Bool) (dOut : Except String String) (gOut : Except String Nat)
    (sOut : Except String String) (cfOut : Except String Unit) (p : EncodeSwapParams) :
    Effect.encodeReq p ∉ (callTransferToMeson mca ed amt tca dim dOut gOut sOut cfOut).1 := by
  unfold callTransferToMeson executeTransferTx
  rcases dOut with m | a <;> rcases gOut with m2 | E <;> rcases sOut with m3 | h <;>
    rcases cfOut with m4 | u <;> repeat' split
  all_goals simp

set_option maxHeartbeats 4000000 in
/-- C3 amended: every encode request of the contract flow carries the contract
flag and the caller's amount and recipient; its sender is the intermediary
override when truthy, the freshly deployed address when deployment happened,
and otherwise the caller's own derived address; the initiator of the resulting
EncodeSwapResult is backfilled with the caller's derived address exactly when
the relayer response carries no truthy initiator. -/
theorem encode_request_content (opts : BridgeOptions) (mco tco : Option String) (dim : Bool)
    (rpc : String) (envKey : Option String) (dA : String → String)
    (cOut : HttpOutcome (List Chain)) (lOut : HttpOutcome (List ChainLimit))
    (eOut : HttpOutcome EncodeSwapResult) (dOut : Except String String)
    (gOut : Except String Nat) (sOut : Except String String) (cfOut : Except String Unit) :
    (∀ p, Effect.encodeReq p ∈ (runContractBridge opts mco tco dim rpc envKey dA cOut lOut
        eOut dOut gOut sOut cfOut).1 →
      p.fromContract = some true
      ∧ p.recipient = opts.recipient
      ∧ p.amount = opts.amount
      ∧ (truthy tco = true → p.fromAddress = tco.getD "")
      ∧ (truthy tco = false → (dim = false ∨ opts.dryRun = true) →
          p.fromAddress = dA ((jsOr opts.privateKey envKey).getD ""))
      ∧ (truthy tco = false → dim = true → opts.dryRun = false → ∀ a, dOut = .ok a →
          a ≠ "" → p.fromAddress = a))
  ∧ (∀ ed0 ed, encodeSwapApi eOut = .ok ed0 →
      resultEncodedData (runContractBridge opts mco tco dim rpc envKey dA cOut lOut eOut dOut
        gOut sOut cfOut).2 = some ed →
      (truthy ed0.initiator = false →
        ed.initiator = some (dA ((jsOr opts.privateKey envKey).getD "")))
      ∧ (truthy ed0.initiator = true → ed.initiator = ed0.initiator)) := by
  constructor
  · unfold runContractBridge backfillInitiator
    cases hk : truthy (jsOr opts.privateKey envKey) <;> simp only [hk] <;> repeat' split
    all_goals intro p hmem
    all_goals try (simp_all [isEncodeEffect, buildEncodePayload, callTransferToMeson_no_encode])
    all_goals try (by_cases htco : truthy tco = true <;> simp_all)
    all_goals (intro hne; subst_vars; simp_all [truthy])
  · unfold runContractBridge backfillInitiator
    cases hk : truthy (jsOr opts.privateKey envKey) <;> simp only [hk] <;> repeat' split
    all_goals intro ed0 ed he hres
    all_goals try (simp_all [resultEncodedData, encodeSwapApi])
    all_goals (subst_vars; simp_all [resultEncodedData, encodeSwapApi])

/-- C3 witness: on a concrete run with a provided intermediary contract, the
encode payload carries the contract flag and the intermediary address as the
sender, and the initiator is backfilled with the caller's derived address. -/
theorem encode_request_content_witness :
    testPayload.fromContract = some true
  ∧ testPayload.fromAddress = (some "0xT").getD ""
  ∧ testEncodedBackfilled.initiator
      = some (constDerive ((jsOr (some "k") none).getD "")) := by
  have h := encode_request_content testOpts (some "0xM") (some "0xT") false "rpc" none
    constDerive chainsOk limitsOk encodeOk (.ok "0xD") (.ok 100) (.ok "0xTX") (.ok ())
  have h1 := h.1 testPayload (by decide)
  have h2 := (h.2 testEncoded testEncodedBackfilled (by decide) (by decide)).1 rfl
  exact ⟨h1.1, h1.2.2.2.1 rfl, h2⟩

end MesonCli
